import Mathlib

/-!
Verification of the NoteApp repository layer: the `Note` entity, the two
interchangeable storage backends (`InMemoryNoteRepository` over a process-local
array, `LocalStorageNoteRepository` over a single serialized blob), and the
HTTP controller boundary (`NoteController.create` / `NoteController.update`).

Modeling conventions (JavaScript semantics made explicit):
- A field value that may be the JavaScript value `undefined` is modeled as
  `Option String`, with `none` standing for `undefined`.  The TypeScript
  entity declares `title : string`, but the runtime is untyped and the code
  paths under verification can and do store `undefined` in these fields.
- `UpdateNoteDTO = Partial<CreateNoteDTO>`: an object in which each of the
  three keys may be absent, or present with any value (including `undefined`).
  A key is modeled as `Option (Option String)`: outer `none` = key absent
  from the object, `some v` = key present with value `v`.  Object spread
  `{...old, ...dto}` overwrites a field of `old` exactly when the key is
  present in `dto`, even when its value is `undefined`.
- Timestamps (`Date` objects) are modeled as `Nat` milliseconds since epoch.
  Each repository operation runs synchronously at one logical instant `now`;
  the two `new Date()` calls inside one operation yield that same instant.
- Identifier generation (`uuidv4()`, `Math.random()`) is nondeterministic
  input and is passed in as a parameter.
-/

/-- The Note entity (`domain/entities/Note.ts`):
`{ id, title, content, category, createdAt, updatedAt }`.
The three text fields are `Option String` because the JavaScript runtime can
hold `undefined` in them (see the modeling conventions above). -/
structure Note where
  id : String
  title : Option String
  content : Option String
  category : Option String
  createdAt : Nat
  updatedAt : Nat
deriving DecidableEq, Repr

/-- CreateNoteDTO (`Omit<Note, 'id' | 'createdAt' | 'updatedAt'>`): the three
text fields; a value may be `undefined` when the repository is invoked
directly, bypassing the transport-boundary validation. -/
structure CreateNoteDTO where
  title : Option String
  content : Option String
  category : Option String
deriving DecidableEq, Repr

/-- UpdateNoteDTO (`Partial<CreateNoteDTO>`): each key may be absent (outer
`none`) or present with a possibly-`undefined` value (`some v`). -/
structure UpdateNoteDTO where
  title : Option (Option String)
  content : Option (Option String)
  category : Option (Option String)
deriving DecidableEq, Repr

/-- JavaScript `Array.prototype.findIndex`: the index of the first element
satisfying the predicate; the sentinel `-1` is modeled as `none`. -/
def findIndex (p : α → Bool) : List α → Option Nat
  | [] => none
  | a :: as => if p a then some 0 else (findIndex p as).map (· + 1)

/-- Object spread on one field: `{...old, ...dto}` takes the DTO's value
exactly when the key is present in the DTO (even if that value is
`undefined`), and keeps the old value otherwise. -/
def mergeField (old : Option String) (patch : Option (Option String)) : Option String :=
  match patch with
  | none => old
  | some v => v

/-- The merged record `{...old, ...noteData, updatedAt: now}` built by both
backends' `update`: `id` and `createdAt` come from `old` (the DTO has no such
keys), the three text fields are spread-merged, `updatedAt` is overwritten. -/
def mergeNote (old : Note) (dto : UpdateNoteDTO) (now : Nat) : Note :=
  { id := old.id
    title := mergeField old.title dto.title
    content := mergeField old.content dto.content
    category := mergeField old.category dto.category
    createdAt := old.createdAt
    updatedAt := now }

namespace InMemoryNoteRepository

/-- State of the ephemeral backend: the private `notes: Note[]` array. -/
abbrev State := List Note

/-- `findAll`: `return [...this.notes]` — the value of the returned array is
the stored sequence itself (the spread copies the array object; object
identity is addressed separately in the reference model below). -/
def findAll (s : State) : List Note := s

/-- `findById`: `this.notes.find(note => note.id === id)`, with
`note || null` collapsing the absent case to the `null` sentinel (`none`). -/
def findById (s : State) (id : String) : Option Note :=
  s.find? (fun note => note.id == id)

/-- `create`: builds `{id: uuidv4(), ...noteData, createdAt: new Date(),
updatedAt: new Date()}`, pushes it, and returns it.  `newId` is the
nondeterministically generated uuid; `now` the current time. -/
def create (s : State) (noteData : CreateNoteDTO) (newId : String) (now : Nat) :
    State × Note :=
  let newNote : Note :=
    { id := newId
      title := noteData.title
      content := noteData.content
      category := noteData.category
      createdAt := now
      updatedAt := now }
  (s ++ [newNote], newNote)

/-- `update`: `findIndex` on the id; `-1` returns `null` with no mutation;
otherwise the slot is overwritten with `{...this.notes[index], ...noteData,
updatedAt: new Date()}` and the merged record is returned. -/
def update (s : State) (id : String) (noteData : UpdateNoteDTO) (now : Nat) :
    State × Option Note :=
  match findIndex (fun note => note.id == id) s with
  | none => (s, none)
  | some index =>
    match s.get? index with
    | none => (s, none)
    | some old =>
      let merged := mergeNote old noteData now
      (s.set index merged, some merged)

/-- `delete`: `findIndex` on the id; `-1` returns `false`; otherwise
`splice(index, 1)` removes that one element and `true` is returned. -/
def delete (s : State) (id : String) : State × Bool :=
  match findIndex (fun note => note.id == id) s with
  | none => (s, false)
  | some index => (s.eraseIdx index, true)

end InMemoryNoteRepository

/-- Decimal digit extraction with an explicit fuel bound (structural
recursion, so that proofs can evaluate it by kernel reduction); any fuel
strictly above `n` yields the decimal digits of `n`. -/
def natCharsAux : Nat → Nat → List Char
  | 0, _ => []
  | fuel + 1, n =>
    if n < 10 then [Char.ofNat (48 + n)]
    else natCharsAux fuel (n / 10) ++ [Char.ofNat (48 + n % 10)]

/-- Decimal rendering of a natural number as a list of ASCII digit characters
(the rendering used by a JavaScript template literal for an integer). -/
def natChars (n : Nat) : List Char := natCharsAux (n + 1) n

/-- Decimal rendering as a string. -/
def decimalString (n : Nat) : String := String.mk (natChars n)

/-- The serialized string form of a `Date` produced by `JSON.stringify`.
The engine renders the ISO-8601 text of the instant; the repository code
treats that text opaquely, so it is modeled as an injective string encoding
of the epoch-millisecond value (its decimal rendering). -/
def dateToJSONString (t : Nat) : String := decimalString t

/-- `new Date(s).getTime()` on a string `s` produced by `dateToJSONString`:
the engine parses the serialized text back to the encoded instant; on the
decimal encoding this is decimal parsing. -/
def parseDate (s : String) : Nat :=
  s.data.foldl (fun a c => 10 * a + (c.toNat - 48)) 0

/-- A note as it sits inside the serialized blob: the same shape, but the
two timestamp fields are strings (`JSON.stringify` renders `Date` fields as
strings; `JSON.parse` gives them back as strings).  A text field holding
`undefined` has its key dropped by `stringify` and reads back as `undefined`,
so `Option String` round-trips unchanged. -/
structure StoredNote where
  id : String
  title : Option String
  content : Option String
  category : Option String
  createdAt : String
  updatedAt : String
deriving DecidableEq, Repr

/-- `JSON.stringify` on one note: identity on the text fields, string
rendering on the `Date` fields. -/
def serializeNote (n : Note) : StoredNote :=
  { id := n.id
    title := n.title
    content := n.content
    category := n.category
    createdAt := dateToJSONString n.createdAt
    updatedAt := dateToJSONString n.updatedAt }

/-- The revival step of `getNotes`: `{...note, createdAt: new Date(note.createdAt),
updatedAt: new Date(note.updatedAt)}` — date strings are reconstructed into
timestamp values. -/
def reviveNote (sn : StoredNote) : Note :=
  { id := sn.id
    title := sn.title
    content := sn.content
    category := sn.category
    createdAt := parseDate sn.createdAt
    updatedAt := parseDate sn.updatedAt }

namespace LocalStorageNoteRepository

/-- The value stored under the fixed key `noteapp_notes`: `none` when the key
is absent, otherwise the JSON-serialized array of notes.  `JSON.parse` and
`JSON.stringify` round-trip the array structure exactly, so the blob is
modeled as the parsed array of `StoredNote`. -/
abbrev Blob := Option (List StoredNote)

/-- `generateId`: the template literal
`Date.now() + '-' + Math.random().toString(36).substr(2, 9)`;
`rand` is the nondeterministic random suffix. -/
def generateId (now : Nat) (rand : String) : String :=
  decimalString now ++ "-" ++ rand

/-- `getNotes`: read the blob; if absent the collection is empty; otherwise
parse and map the date-string fields back into `Date` values. -/
def getNotes (b : Blob) : List Note :=
  match b with
  | none => []
  | some data => data.map reviveNote

/-- `saveNotes`: serialize the whole collection and overwrite the blob. -/
def saveNotes (notes : List Note) : Blob :=
  some (notes.map serializeNote)

/-- `findAll`: `return this.getNotes()`. -/
def findAll (b : Blob) : List Note := getNotes b

/-- `findById`: `find` over the freshly read collection, `note || null`. -/
def findById (b : Blob) (id : String) : Option Note :=
  (getNotes b).find? (fun n => n.id == id)

/-- `create`: read, append `{id: this.generateId(), ...noteData,
createdAt: new Date(), updatedAt: new Date()}`, save, return the new note. -/
def create (b : Blob) (noteData : CreateNoteDTO) (now : Nat) (rand : String) :
    Blob × Note :=
  let notes := getNotes b
  let newNote : Note :=
    { id := generateId now rand
      title := noteData.title
      content := noteData.content
      category := noteData.category
      createdAt := now
      updatedAt := now }
  (saveNotes (notes ++ [newNote]), newNote)

/-- `update`: read, `findIndex`; `-1` returns `null` without saving;
otherwise overwrite the slot with the spread merge, save, return it. -/
def update (b : Blob) (id : String) (noteData : UpdateNoteDTO) (now : Nat) :
    Blob × Option Note :=
  let notes := getNotes b
  match findIndex (fun n => n.id == id) notes with
  | none => (b, none)
  | some index =>
    match notes.get? index with
    | none => (b, none)
    | some old =>
      let merged := mergeNote old noteData now
      (saveNotes (notes.set index merged), some merged)

/-- `delete`: read, `findIndex`; `-1` returns `false` without saving;
otherwise `splice(index, 1)`, save, return `true`. -/
def delete (b : Blob) (id : String) : Blob × Bool :=
  let notes := getNotes b
  match findIndex (fun n => n.id == id) notes with
  | none => (b, false)
  | some index => (saveNotes (notes.eraseIdx index), true)

end LocalStorageNoteRepository

/-- JavaScript truthiness of a possibly-absent string value: `undefined` and
the empty string are falsy, every other string is truthy. -/
def falsy : Option String → Bool
  | none => true
  | some s => s == ""

/-- The request body of `POST /notes` as destructured by the controller:
`const { title, content, category } = req.body`; a field absent from the
body destructures to `undefined` (`none`). -/
structure CreateBody where
  title : Option String
  content : Option String
  category : Option String
deriving DecidableEq, Repr

/-- The request body of `PUT /notes/:id`, destructured the same way. -/
structure UpdateBody where
  title : Option String
  content : Option String
  category : Option String
deriving DecidableEq, Repr

/-- Outcome of the `POST /notes` handler: 400 when `!title || !content`,
otherwise 201 with the created note. -/
inductive CreateResponse where
  | badRequest
  | created (n : Note)
deriving DecidableEq, Repr

/-- Outcome of the `PUT /notes/:id` handler: 404 when the use case returns
`null`, otherwise 200 with the updated note. -/
inductive UpdateResponse where
  | notFound
  | ok (n : Note)
deriving DecidableEq, Repr

namespace NoteController

/-- `NoteController.create` wired (as in `server.ts`) to the in-memory
repository through `CreateNoteUseCase` (a pure pass-through): destructure the
body; if `!title || !content` respond 400 without invoking the repository;
otherwise call the repository with `{title, content, category: category || 'Geral'}`
and respond 201 with its result. -/
def create (s : InMemoryNoteRepository.State) (body : CreateBody)
    (newId : String) (now : Nat) : InMemoryNoteRepository.State × CreateResponse :=
  if falsy body.title || falsy body.content then
    (s, CreateResponse.badRequest)
  else
    let dto : CreateNoteDTO :=
      { title := body.title
        content := body.content
        category := if falsy body.category then some "Geral" else body.category }
    let result := InMemoryNoteRepository.create s dto newId now
    (result.1, CreateResponse.created result.2)

/-- `NoteController.update` wired to the in-memory repository through
`UpdateNoteUseCase`: destructure the body and pass the object literal
`{title, content, category}` to the repository — all three keys are present
in that literal, each carrying `undefined` when absent from the body. -/
def update (s : InMemoryNoteRepository.State) (id : String) (body : UpdateBody)
    (now : Nat) : InMemoryNoteRepository.State × UpdateResponse :=
  let dto : UpdateNoteDTO :=
    { title := some body.title
      content := some body.content
      category := some body.category }
  let result := InMemoryNoteRepository.update s id dto now
  match result.2 with
  | none => (result.1, UpdateResponse.notFound)
  | some n => (result.1, UpdateResponse.ok n)

end NoteController

/-!
Reference-semantics model of the in-memory backend's `findAll`, needed to
talk about object aliasing: `return [...this.notes]` copies the *array*, but
the array holds references to the very `Note` objects the repository keeps.
A heap of note objects is a list of cells addressed by `Nat`; the
repository's array and the returned array are lists of such references.
-/

/-- Heap-level state of the in-memory backend: `heap` holds the note
objects, `store` is the repository's private array of references. -/
structure RefState where
  heap : List Note
  store : List Nat
deriving DecidableEq, Repr

/-- `findAll` at the reference level: the spread `[...this.notes]` yields a
fresh array containing the same references, in the same order. -/
def findAllRefs (s : RefState) : List Nat := s.store

/-- What the repository internally holds, read through its references. -/
def internalNotes (s : RefState) : List (Option Note) :=
  s.store.map (fun r => s.heap.get? r)

/-- A caller mutating a field of a note object it reached through a
reference (for example `result[0].title = ...`): the heap cell changes. -/
def mutateRef (s : RefState) (r : Nat) (f : Note → Note) : RefState :=
  { s with heap := match s.heap.get? r with
                   | some n => s.heap.set r (f n)
                   | none => s.heap }

/-!
Operation sequences over each backend, for the id-uniqueness invariant.
-/

/-- One mutating repository call, with its nondeterministic inputs (generated
id or random suffix, current time) recorded as data. -/
inductive MemOp where
  | create (dto : CreateNoteDTO) (newId : String) (now : Nat)
  | update (id : String) (dto : UpdateNoteDTO) (now : Nat)
  | delete (id : String)
deriving DecidableEq, Repr

/-- The ids held by an in-memory store. -/
def noteIds (s : List Note) : List String := s.map Note.id

/-- Effect of one call on the in-memory backend's state. -/
def memStep (s : InMemoryNoteRepository.State) : MemOp → InMemoryNoteRepository.State
  | MemOp.create dto newId now => (InMemoryNoteRepository.create s dto newId now).1
  | MemOp.update id dto now => (InMemoryNoteRepository.update s id dto now).1
  | MemOp.delete id => (InMemoryNoteRepository.delete s id).1

/-- Effect of a sequence of calls on the in-memory backend. -/
def memRun (s : InMemoryNoteRepository.State) : List MemOp → InMemoryNoteRepository.State
  | [] => s
  | op :: ops => memRun (memStep s op) ops

/-- The id generator is collision-free for the run: each `create` is handed
an id not already held by the store it executes against (the spec's stated
requirement on the generator). -/
def memFresh (s : InMemoryNoteRepository.State) : List MemOp → Bool
  | [] => true
  | op :: ops =>
    (match op with
     | MemOp.create _ newId _ => !(noteIds s).contains newId
     | _ => true) && memFresh (memStep s op) ops

/-- Effect of one call on the persistent backend's blob.  A `create` records
the random suffix; the generated id is `generateId now rand`. -/
def lsStep (b : LocalStorageNoteRepository.Blob) : MemOp → LocalStorageNoteRepository.Blob
  | MemOp.create dto rand now => (LocalStorageNoteRepository.create b dto now rand).1
  | MemOp.update id dto now => (LocalStorageNoteRepository.update b id dto now).1
  | MemOp.delete id => (LocalStorageNoteRepository.delete b id).1

/-- Effect of a sequence of calls on the persistent backend. -/
def lsRun (b : LocalStorageNoteRepository.Blob) : List MemOp → LocalStorageNoteRepository.Blob
  | [] => b
  | op :: ops => lsRun (lsStep b op) ops

/-- Collision-freedom of the generated ids for a run of the persistent
backend, against the logical collection read from the blob. -/
def lsFresh (b : LocalStorageNoteRepository.Blob) : List MemOp → Bool
  | [] => true
  | op :: ops =>
    (match op with
     | MemOp.create _ rand now =>
       !(noteIds (LocalStorageNoteRepository.getNotes b)).contains
         (LocalStorageNoteRepository.generateId now rand)
     | _ => true) && lsFresh (lsStep b op) ops

/-! Helper lemmas. -/

theorem digit_char_val : ∀ d : Fin 10, (Char.ofNat (48 + d.val)).toNat - 48 = d.val := by
  decide

theorem parse_natCharsAux :
    ∀ (fuel n : Nat), n < fuel →
      (natCharsAux fuel n).foldl (fun a c => 10 * a + (c.toNat - 48)) 0 = n := by
  intro fuel
  induction fuel with
  | zero => intro n h; omega
  | succ f ih =>
    intro n h
    rw [natCharsAux]
    by_cases h10 : n < 10
    · simp only [h10, if_true, List.foldl_cons, List.foldl_nil]
      have := digit_char_val ⟨n, h10⟩
      simp at this ⊢
      omega
    · simp only [h10, if_false, List.foldl_append, List.foldl_cons, List.foldl_nil]
      have hlt : n / 10 < f := by
        have hdn : n / 10 < n := Nat.div_lt_self (by omega) (by omega)
        omega
      rw [ih (n / 10) hlt]
      have := digit_char_val ⟨n % 10, Nat.mod_lt _ (by omega)⟩
      simp at this
      omega

theorem parse_natChars (n : Nat) :
    (natChars n).foldl (fun a c => 10 * a + (c.toNat - 48)) 0 = n :=
  parse_natCharsAux (n + 1) n (Nat.lt_succ_self n)

theorem parseDate_dateToJSONString (t : Nat) : parseDate (dateToJSONString t) = t := by
  simpa [parseDate, dateToJSONString, decimalString] using parse_natChars t

theorem reviveNote_serializeNote (n : Note) : reviveNote (serializeNote n) = n := by
  simp [reviveNote, serializeNote, parseDate_dateToJSONString]

theorem getNotes_saveNotes (l : List Note) :
    LocalStorageNoteRepository.getNotes (LocalStorageNoteRepository.saveNotes l) = l := by
  simp only [LocalStorageNoteRepository.getNotes, LocalStorageNoteRepository.saveNotes,
    List.map_map]
  have h : reviveNote ∘ serializeNote = id := funext fun n => reviveNote_serializeNote n
  rw [h, List.map_id]

theorem findIndex_eq_none_iff {p : α → Bool} {s : List α} :
    findIndex p s = none ↔ ∀ a ∈ s, p a = false := by
  induction s with
  | nil => simp [findIndex]
  | cons x xs ih =>
    by_cases h : p x <;> simp [findIndex, h, ih]

theorem findIndex_some_spec {p : α → Bool} :
    ∀ {s : List α} {i : Nat}, findIndex p s = some i →
      ∃ a, s.get? i = some a ∧ p a = true := by
  intro s
  induction s with
  | nil => intro i h; simp [findIndex] at h
  | cons x xs ih =>
    intro i h
    simp only [findIndex] at h
    by_cases hx : p x
    · simp [hx] at h
      subst h
      exact ⟨x, rfl, hx⟩
    · simp [hx, Option.map_eq_some'] at h
      obtain ⟨j, hj, rfl⟩ := h
      simpa using ih hj

theorem mem_of_mem_eraseIdx' :
    ∀ (s : List α) (i : Nat) (a : α), a ∈ s.eraseIdx i → a ∈ s := by
  intro s
  induction s with
  | nil => intro i a h; simp [List.eraseIdx] at h
  | cons x xs ih =>
    intro i a h
    cases i with
    | zero => simp [List.eraseIdx] at h; exact List.mem_cons_of_mem _ h
    | succ j =>
      simp [List.eraseIdx] at h
      rcases h with h | h
      · exact h ▸ List.mem_cons_self _ _
      · exact List.mem_cons_of_mem _ (ih j a h)

theorem nodup_map_eraseIdx (f : α → β) :
    ∀ (s : List α) (i : Nat), (s.map f).Nodup → ((s.eraseIdx i).map f).Nodup := by
  intro s
  induction s with
  | nil => intro i h; simp [List.eraseIdx]
  | cons x xs ih =>
    intro i h
    cases i with
    | zero => simpa [List.eraseIdx] using h.of_cons
    | succ j =>
      simp only [List.eraseIdx, List.map_cons, List.nodup_cons] at h ⊢
      refine ⟨fun hmem => ?_, ih j h.2⟩
      obtain ⟨a, ha, hfa⟩ := List.mem_map.mp hmem
      exact h.1 (List.mem_map.mpr ⟨a, mem_of_mem_eraseIdx' xs j a ha, hfa⟩)

theorem eraseIdx_no_match {id : String} :
    ∀ (s : List Note) (i : Nat), (noteIds s).Nodup →
      findIndex (fun n => n.id == id) s = some i →
      ∀ a ∈ s.eraseIdx i, (a.id == id) = false := by
  intro s
  induction s with
  | nil => intro i _ h; simp [findIndex] at h
  | cons x xs ih =>
    intro i hnd h a ha
    simp only [noteIds, List.map_cons, List.nodup_cons] at hnd
    by_cases hx : (x.id == id)
    · simp only [findIndex, hx, if_true] at h
      have hi : i = 0 := by simpa using h.symm
      subst hi
      simp [List.eraseIdx] at ha
      have : a.id ∈ noteIds xs := List.mem_map.mpr ⟨a, ha, rfl⟩
      have hne : a.id ≠ x.id := fun he => hnd.1 (he ▸ this)
      have hxid : x.id = id := by simpa using hx
      simp [hxid ▸ hne]
    · simp [findIndex, hx, Option.map_eq_some'] at h
      obtain ⟨j, hj, rfl⟩ := h
      cases ha with
      | head => simpa using hx
      | tail _ ha' => exact ih j hnd.2 hj a ha'

theorem find?_append_fresh {n : Note} :
    ∀ (s : List Note), n.id ∉ noteIds s →
      (s ++ [n]).find? (fun m => m.id == n.id) = some n := by
  intro s
  induction s with
  | nil => simp [List.find?]
  | cons x xs ih =>
    intro h
    simp only [noteIds, List.map_cons, List.mem_cons] at h
    push_neg at h
    have hx : (x.id == n.id) = false := by
      simp
      exact fun he => h.1 he.symm
    simp only [List.cons_append, List.find?, hx]
    exact ih h.2

theorem findIndex_id_eq_none {s : List Note} {id : String} (h : id ∉ noteIds s) :
    findIndex (fun n => n.id == id) s = none := by
  refine findIndex_eq_none_iff.mpr fun a ha => ?_
  have : a.id ∈ noteIds s := List.mem_map.mpr ⟨a, ha, rfl⟩
  exact beq_eq_false_iff_ne.mpr fun he => h (he ▸ this)

theorem map_id_set_merge (dto : UpdateNoteDTO) (now : Nat) :
    ∀ (s : List Note) (i : Nat) (old : Note), s.get? i = some old →
      (s.set i (mergeNote old dto now)).map Note.id = s.map Note.id := by
  intro s
  induction s with
  | nil => intro i old h; simp at h
  | cons x xs ih =>
    intro i old h
    cases i with
    | zero =>
      simp only [List.get?_cons_zero, Option.some.injEq] at h
      subst h
      simp [mergeNote]
    | succ j =>
      rw [List.get?_cons_succ] at h
      simpa using ih j old h

theorem update_spec_none (s : List Note) (id : String) (dto : UpdateNoteDTO) (now : Nat)
    (hfi : findIndex (fun note => note.id == id) s = none) :
    InMemoryNoteRepository.update s id dto now = (s, none) := by
  simp only [InMemoryNoteRepository.update, hfi]

theorem update_spec_some (s : List Note) (id : String) (dto : UpdateNoteDTO) (now : Nat)
    (i : Nat) (old : Note)
    (hfi : findIndex (fun note => note.id == id) s = some i)
    (hg : s.get? i = some old) :
    InMemoryNoteRepository.update s id dto now =
      (s.set i (mergeNote old dto now), some (mergeNote old dto now)) := by
  simp only [InMemoryNoteRepository.update, hfi, hg]

theorem noteIds_update_fst (s : List Note) (id : String) (dto : UpdateNoteDTO) (now : Nat) :
    noteIds (InMemoryNoteRepository.update s id dto now).1 = noteIds s := by
  cases hfi : findIndex (fun note => note.id == id) s with
  | none => rw [update_spec_none s id dto now hfi]
  | some i =>
    obtain ⟨old, hg, _⟩ := findIndex_some_spec hfi
    rw [update_spec_some s id dto now i old hfi hg]
    exact map_id_set_merge dto now s i old hg

theorem noteIds_create_fst (s : List Note) (dto : CreateNoteDTO) (newId : String) (now : Nat) :
    noteIds (InMemoryNoteRepository.create s dto newId now).1 = noteIds s ++ [newId] := by
  simp [InMemoryNoteRepository.create, noteIds]

theorem nodup_append_fresh {l : List String} {a : String}
    (h : l.Nodup) (ha : a ∉ l) : (l ++ [a]).Nodup := by
  simp [List.nodup_append, h, ha]

theorem memStep_nodup (s : InMemoryNoteRepository.State) (op : MemOp)
    (h : (noteIds s).Nodup)
    (hf : match op with
          | MemOp.create _ newId _ => !(noteIds s).contains newId
          | _ => true) :
    (noteIds (memStep s op)).Nodup := by
  cases op with
  | create dto newId now =>
    simp only [memStep, noteIds_create_fst]
    simp at hf
    exact nodup_append_fresh h hf
  | update id dto now => simpa [memStep, noteIds_update_fst] using h
  | delete id =>
    simp only [memStep, InMemoryNoteRepository.delete]
    cases hfi : findIndex (fun note => note.id == id) s with
    | none => exact h
    | some i => exact nodup_map_eraseIdx Note.id s i h

theorem memRun_nodup :
    ∀ (ops : List MemOp) (s : InMemoryNoteRepository.State),
      (noteIds s).Nodup → memFresh s ops = true → (noteIds (memRun s ops)).Nodup := by
  intro ops
  induction ops with
  | nil => intro s h _; exact h
  | cons op rest ih =>
    intro s h hf
    simp only [memFresh, Bool.and_eq_true] at hf
    refine ih (memStep s op) (memStep_nodup s op h ?_) hf.2
    cases op with
    | create dto newId now => simpa using hf.1
    | update id dto now => simp
    | delete id => simp

theorem ls_update_spec_none (b : LocalStorageNoteRepository.Blob) (id : String)
    (dto : UpdateNoteDTO) (now : Nat)
    (hfi : findIndex (fun n => n.id == id) (LocalStorageNoteRepository.getNotes b) = none) :
    LocalStorageNoteRepository.update b id dto now = (b, none) := by
  simp only [LocalStorageNoteRepository.update, hfi]

theorem ls_update_spec_some (b : LocalStorageNoteRepository.Blob) (id : String)
    (dto : UpdateNoteDTO) (now : Nat) (i : Nat) (old : Note)
    (hfi : findIndex (fun n => n.id == id) (LocalStorageNoteRepository.getNotes b) = some i)
    (hg : (LocalStorageNoteRepository.getNotes b).get? i = some old) :
    LocalStorageNoteRepository.update b id dto now =
      (LocalStorageNoteRepository.saveNotes
        ((LocalStorageNoteRepository.getNotes b).set i (mergeNote old dto now)),
       some (mergeNote old dto now)) := by
  simp only [LocalStorageNoteRepository.update, hfi, hg]

theorem ls_getNotes_create (b : LocalStorageNoteRepository.Blob) (dto : CreateNoteDTO)
    (now : Nat) (rand : String) :
    LocalStorageNoteRepository.getNotes (LocalStorageNoteRepository.create b dto now rand).1 =
      LocalStorageNoteRepository.getNotes b ++
        [(LocalStorageNoteRepository.create b dto now rand).2] := by
  simp only [LocalStorageNoteRepository.create, getNotes_saveNotes]

theorem lsStep_nodup (b : LocalStorageNoteRepository.Blob) (op : MemOp)
    (h : (noteIds (LocalStorageNoteRepository.getNotes b)).Nodup)
    (hf : match op with
          | MemOp.create _ rand now =>
            !(noteIds (LocalStorageNoteRepository.getNotes b)).contains
              (LocalStorageNoteRepository.generateId now rand)
          | _ => true) :
    (noteIds (LocalStorageNoteRepository.getNotes (lsStep b op))).Nodup := by
  cases op with
  | create dto rand now =>
    simp only [lsStep, ls_getNotes_create, noteIds, List.map_append]
    simp only [LocalStorageNoteRepository.create, List.map_cons, List.map_nil]
    simp at hf
    exact nodup_append_fresh h hf
  | update id dto now =>
    simp only [lsStep]
    cases hfi : findIndex (fun n => n.id == id) (LocalStorageNoteRepository.getNotes b) with
    | none => rw [ls_update_spec_none b id dto now hfi]; exact h
    | some i =>
      obtain ⟨old, hg, _⟩ := findIndex_some_spec hfi
      rw [ls_update_spec_some b id dto now i old hfi hg]
      rw [getNotes_saveNotes]
      have := map_id_set_merge dto now (LocalStorageNoteRepository.getNotes b) i old hg
      simpa [noteIds, this] using h
  | delete id =>
    simp only [lsStep, LocalStorageNoteRepository.delete]
    cases hfi : findIndex (fun n => n.id == id) (LocalStorageNoteRepository.getNotes b) with
    | none => exact h
    | some i =>
      rw [getNotes_saveNotes]
      exact nodup_map_eraseIdx Note.id _ i h

theorem lsRun_nodup :
    ∀ (ops : List MemOp) (b : LocalStorageNoteRepository.Blob),
      (noteIds (LocalStorageNoteRepository.getNotes b)).Nodup → lsFresh b ops = true →
      (noteIds (LocalStorageNoteRepository.getNotes (lsRun b ops))).Nodup := by
  intro ops
  induction ops with
  | nil => intro b h _; exact h
  | cons op rest ih =>
    intro b h hf
    simp only [lsFresh, Bool.and_eq_true] at hf
    refine ih (lsStep b op) (lsStep_nodup b op h ?_) hf.2
    cases op with
    | create dto rand now => simpa using hf.1
    | update id dto now => simp
    | delete id => simp

/-! Claim theorems. -/

/-- C1: for every backend and every note present in the store, `update(id, dto)`
shallow-merges the supplied DTO fields onto the existing record, preserves
every field whose key is not supplied, keeps `id` and `createdAt`, sets
`updatedAt` to the current time (strictly greater than the prior value when
the clock has advanced), stores the merged record in place, and returns it. -/
theorem C1_update_shallow_merge
    (s : List Note) (id : String) (dto : UpdateNoteDTO) (now : Nat)
    (i : Nat) (old : Note)
    (hfi : findIndex (fun note => note.id == id) s = some i)
    (hg : s.get? i = some old)
    (ht : old.updatedAt < now) :
    InMemoryNoteRepository.update s id dto now =
      (s.set i (mergeNote old dto now), some (mergeNote old dto now)) ∧
    (dto.title = none → (mergeNote old dto now).title = old.title) ∧
    (dto.content = none → (mergeNote old dto now).content = old.content) ∧
    (dto.category = none → (mergeNote old dto now).category = old.category) ∧
    (∀ v, dto.title = some v → (mergeNote old dto now).title = v) ∧
    (∀ v, dto.content = some v → (mergeNote old dto now).content = v) ∧
    (∀ v, dto.category = some v → (mergeNote old dto now).category = v) ∧
    (mergeNote old dto now).id = old.id ∧
    (mergeNote old dto now).createdAt = old.createdAt ∧
    (mergeNote old dto now).updatedAt = now ∧
    old.updatedAt < (mergeNote old dto now).updatedAt ∧
    (∀ b, LocalStorageNoteRepository.getNotes b = s →
      LocalStorageNoteRepository.update b id dto now =
        (LocalStorageNoteRepository.saveNotes (s.set i (mergeNote old dto now)),
         some (mergeNote old dto now))) := by
  refine ⟨update_spec_some s id dto now i old hfi hg, ?_, ?_, ?_, ?_, ?_, ?_, rfl, rfl, rfl, ht, ?_⟩
  · intro h; simp [mergeNote, mergeField, h]
  · intro h; simp [mergeNote, mergeField, h]
  · intro h; simp [mergeNote, mergeField, h]
  · intro v h; simp [mergeNote, mergeField, h]
  · intro v h; simp [mergeNote, mergeField, h]
  · intro v h; simp [mergeNote, mergeField, h]
  · intro b hb
    exact hb ▸ ls_update_spec_some b id dto now i old (hb ▸ hfi) (hb ▸ hg)

/-- Witness for C1: the spec's own example, an existing note
`{title:"A", content:"B", category:"C"}` updated with `{title:"X"}` at a
strictly later time. -/
theorem C1_update_shallow_merge_witness :
    InMemoryNoteRepository.update
        [{ id := "n1", title := some "A", content := some "B", category := some "C",
           createdAt := 5, updatedAt := 5 }] "n1"
        { title := some (some "X"), content := none, category := none } 9 =
      ([{ id := "n1", title := some "X", content := some "B", category := some "C",
          createdAt := 5, updatedAt := 9 }],
       some { id := "n1", title := some "X", content := some "B", category := some "C",
              createdAt := 5, updatedAt := 9 }) ∧
    (5 : Nat) < 9 := by
  have h := C1_update_shallow_merge
    [{ id := "n1", title := some "A", content := some "B", category := some "C",
       createdAt := 5, updatedAt := 5 }] "n1"
    { title := some (some "X"), content := none, category := none } 9 0
    { id := "n1", title := some "A", content := some "B", category := some "C",
      createdAt := 5, updatedAt := 5 }
    (by decide) (by decide) (by decide)
  exact ⟨h.1, by decide⟩

/-- C2 counterexample: the in-memory `findAll` returns `[...this.notes]` — a
copy of the array that still holds references to the repository's own note
objects.  At the reference level, a caller that mutates a field of a note
object it reached through the returned array (here: setting the title of the
first returned note) changes the repository's internal state, so the claim
that any mutation of the returned result leaves internal state unchanged is
false at this concrete input. -/
theorem C2_findAll_not_deep_defensive :
    internalNotes
        (mutateRef { heap := [{ id := "n1", title := some "A", content := some "B",
                                category := some "C", createdAt := 0, updatedAt := 0 }],
                     store := [0] }
          ((findAllRefs { heap := [{ id := "n1", title := some "A", content := some "B",
                                     category := some "C", createdAt := 0, updatedAt := 0 }],
                          store := [0] }).headD 0)
          (fun n => { n with title := some "hacked" })) ≠
      internalNotes { heap := [{ id := "n1", title := some "A", content := some "B",
                                 category := some "C", createdAt := 0, updatedAt := 0 }],
                      store := [0] } := by
  decide

/-- C2 amended: `findAll` returns the notes in insertion order and an empty
sequence (not an error) when none exist, for both backends; the persistent
backend rebuilds fresh records from the blob on every read (so any caller
mutation is invisible to it), and the in-memory backend's returned array is a
copy of the internal array holding the same references, so mutations of the
returned sequence itself do not affect the repository, but field mutations of
the shared note objects do. -/
theorem C2_findAll_order_empty_copy (s : List Note) (rs : RefState) :
    InMemoryNoteRepository.findAll s = s ∧
    InMemoryNoteRepository.findAll ([] : List Note) = [] ∧
    LocalStorageNoteRepository.findAll none = [] ∧
    LocalStorageNoteRepository.findAll (LocalStorageNoteRepository.saveNotes s) = s ∧
    findAllRefs rs = rs.store := by
  exact ⟨rfl, rfl, rfl, getNotes_saveNotes s, rfl⟩

/-- C3: on the persistent backend, after `create(dto)` a fresh repository
instance reading the same blob sees the prior collection plus the created
note, with `createdAt`/`updatedAt` equal to the creation instant as timestamp
values (the blob itself holds their serialized string form, and parsing
inverts the rendering); and with the storage key absent, `findAll` reads an
empty collection. -/
theorem C3_persistence_roundtrip (b : LocalStorageNoteRepository.Blob)
    (dto : CreateNoteDTO) (now : Nat) (rand : String) :
    LocalStorageNoteRepository.findAll (LocalStorageNoteRepository.create b dto now rand).1 =
      LocalStorageNoteRepository.findAll b ++
        [(LocalStorageNoteRepository.create b dto now rand).2] ∧
    (LocalStorageNoteRepository.create b dto now rand).2.createdAt = now ∧
    (LocalStorageNoteRepository.create b dto now rand).2.updatedAt = now ∧
    (serializeNote (LocalStorageNoteRepository.create b dto now rand).2).createdAt =
      dateToJSONString now ∧
    (∀ t, parseDate (dateToJSONString t) = t) ∧
    LocalStorageNoteRepository.findAll none = [] := by
  exact ⟨ls_getNotes_create b dto now rand, rfl, rfl, rfl, parseDate_dateToJSONString, rfl⟩

/-- C4: for every valid DTO and both backends, `create(dto)` builds a note
carrying the freshly generated id, stamps `createdAt` and `updatedAt` to the
same current instant, appends it to the store, and returns the full stored
record, so `findById` on the returned id finds exactly that record.
Freshness of the generated id (the spec's requirement on the generator) is a
hypothesis. -/
theorem C4_create_appends_and_findable
    (s : List Note) (dto : CreateNoteDTO) (newId : String) (now : Nat)
    (hfresh : newId ∉ noteIds s) :
    (InMemoryNoteRepository.create s dto newId now).1 =
      s ++ [(InMemoryNoteRepository.create s dto newId now).2] ∧
    (InMemoryNoteRepository.create s dto newId now).2 =
      { id := newId, title := dto.title, content := dto.content,
        category := dto.category, createdAt := now, updatedAt := now } ∧
    (InMemoryNoteRepository.create s dto newId now).2.createdAt =
      (InMemoryNoteRepository.create s dto newId now).2.updatedAt ∧
    InMemoryNoteRepository.findById (InMemoryNoteRepository.create s dto newId now).1
        (InMemoryNoteRepository.create s dto newId now).2.id =
      some (InMemoryNoteRepository.create s dto newId now).2 ∧
    (∀ b rand, LocalStorageNoteRepository.getNotes b = s →
      LocalStorageNoteRepository.generateId now rand ∉ noteIds s →
      (LocalStorageNoteRepository.getNotes (LocalStorageNoteRepository.create b dto now rand).1 =
        s ++ [(LocalStorageNoteRepository.create b dto now rand).2] ∧
       (LocalStorageNoteRepository.create b dto now rand).2.createdAt =
         (LocalStorageNoteRepository.create b dto now rand).2.updatedAt ∧
       LocalStorageNoteRepository.findById (LocalStorageNoteRepository.create b dto now rand).1
           (LocalStorageNoteRepository.create b dto now rand).2.id =
         some (LocalStorageNoteRepository.create b dto now rand).2)) := by
  refine ⟨rfl, rfl, rfl, ?_, ?_⟩
  · exact find?_append_fresh s hfresh
  · intro b rand hb hf
    refine ⟨by rw [ls_getNotes_create, hb], rfl, ?_⟩
    show (LocalStorageNoteRepository.getNotes
        (LocalStorageNoteRepository.create b dto now rand).1).find? _ = _
    rw [ls_getNotes_create, hb]
    exact find?_append_fresh s hf

/-- Witness for C4: creating a note with a fresh id in a one-note store, on
both backends. -/
theorem C4_create_appends_and_findable_witness :
    ("b2" ∉ noteIds [{ id := "a1", title := some "t", content := some "c",
                       category := some "g", createdAt := 1, updatedAt := 1 }]) ∧
    InMemoryNoteRepository.findById
        (InMemoryNoteRepository.create
          [{ id := "a1", title := some "t", content := some "c", category := some "g",
             createdAt := 1, updatedAt := 1 }]
          { title := some "T", content := some "C", category := some "G" } "b2" 7).1
        "b2" =
      some { id := "b2", title := some "T", content := some "C", category := some "G",
             createdAt := 7, updatedAt := 7 } := by
  have h := C4_create_appends_and_findable
    [{ id := "a1", title := some "t", content := some "c", category := some "g",
       createdAt := 1, updatedAt := 1 }]
    { title := some "T", content := some "C", category := some "G" } "b2" 7
    (by decide)
  exact ⟨by decide, h.2.2.2.1⟩

/-- C5: on both backends, `update` on an id not present in the store returns
the not-found sentinel (`null`) and performs no mutation: the store is
exactly what it was before the call. -/
theorem C5_update_missing_id_no_mutation
    (s : List Note) (id : String) (dto : UpdateNoteDTO) (now : Nat)
    (habsent : id ∉ noteIds s) :
    InMemoryNoteRepository.update s id dto now = (s, none) ∧
    (∀ b, LocalStorageNoteRepository.getNotes b = s →
      LocalStorageNoteRepository.update b id dto now = (b, none)) := by
  have hfi := findIndex_id_eq_none habsent
  refine ⟨update_spec_none s id dto now hfi, ?_⟩
  intro b hb
  exact ls_update_spec_none b id dto now (hb ▸ hfi)

/-- Witness for C5: updating the id `does-not-exist` in a one-note store
leaves both backends' stores untouched and returns the sentinel. -/
theorem C5_update_missing_id_no_mutation_witness :
    ("does-not-exist" ∉ noteIds [{ id := "a1", title := some "t", content := some "c",
                                   category := some "g", createdAt := 1, updatedAt := 1 }]) ∧
    InMemoryNoteRepository.update
        [{ id := "a1", title := some "t", content := some "c", category := some "g",
           createdAt := 1, updatedAt := 1 }]
        "does-not-exist" { title := some (some "X"), content := none, category := none } 9 =
      ([{ id := "a1", title := some "t", content := some "c", category := some "g",
          createdAt := 1, updatedAt := 1 }], none) := by
  have h := C5_update_missing_id_no_mutation
    [{ id := "a1", title := some "t", content := some "c", category := some "g",
       createdAt := 1, updatedAt := 1 }]
    "does-not-exist" { title := some (some "X"), content := none, category := none } 9
    (by decide)
  exact ⟨by decide, h.1⟩

theorem delete_spec_none (s : List Note) (id : String)
    (hfi : findIndex (fun note => note.id == id) s = none) :
    InMemoryNoteRepository.delete s id = (s, false) := by
  simp only [InMemoryNoteRepository.delete, hfi]

theorem delete_spec_some (s : List Note) (id : String) (i : Nat)
    (hfi : findIndex (fun note => note.id == id) s = some i) :
    InMemoryNoteRepository.delete s id = (s.eraseIdx i, true) := by
  simp only [InMemoryNoteRepository.delete, hfi]

theorem ls_delete_spec_none (b : LocalStorageNoteRepository.Blob) (id : String)
    (hfi : findIndex (fun n => n.id == id) (LocalStorageNoteRepository.getNotes b) = none) :
    LocalStorageNoteRepository.delete b id = (b, false) := by
  simp only [LocalStorageNoteRepository.delete, hfi]

theorem ls_delete_spec_some (b : LocalStorageNoteRepository.Blob) (id : String) (i : Nat)
    (hfi : findIndex (fun n => n.id == id) (LocalStorageNoteRepository.getNotes b) = some i) :
    LocalStorageNoteRepository.delete b id =
      (LocalStorageNoteRepository.saveNotes
        ((LocalStorageNoteRepository.getNotes b).eraseIdx i), true) := by
  simp only [LocalStorageNoteRepository.delete, hfi]

theorem not_mem_of_findIndex_none {s : List Note} {id : String}
    (hfi : findIndex (fun note => note.id == id) s = none) : id ∉ noteIds s := by
  intro hmem
  obtain ⟨a, ha, hai⟩ := List.mem_map.mp hmem
  have := findIndex_eq_none_iff.mp hfi a ha
  rw [hai] at this
  simp at this

theorem mem_of_findIndex_some {s : List Note} {id : String} {i : Nat}
    (hfi : findIndex (fun note => note.id == id) s = some i) : id ∈ noteIds s := by
  obtain ⟨a, hg, hp⟩ := findIndex_some_spec hfi
  have ha : a ∈ s := List.get?_mem hg
  have : a.id = id := by simpa using hp
  exact this ▸ List.mem_map.mpr ⟨a, ha, rfl⟩

/-- C6: on both backends, `delete(id)` returns `true` precisely when a record
with that id exists; in that case (under the repository's id-uniqueness
invariant) the record is removed — the count drops by one, the id is gone —
and a second `delete` of the same id returns `false` without touching the
store; on an absent id it returns `false` and leaves the store unchanged. -/
theorem C6_delete_true_iff_present
    (s : List Note) (id : String)
    (hnd : (noteIds s).Nodup) :
    ((InMemoryNoteRepository.delete s id).2 = true ↔ id ∈ noteIds s) ∧
    (id ∉ noteIds s → InMemoryNoteRepository.delete s id = (s, false)) ∧
    (id ∈ noteIds s →
      id ∉ noteIds (InMemoryNoteRepository.delete s id).1 ∧
      ((InMemoryNoteRepository.delete s id).1).length + 1 = s.length ∧
      InMemoryNoteRepository.delete (InMemoryNoteRepository.delete s id).1 id =
        ((InMemoryNoteRepository.delete s id).1, false)) ∧
    (∀ b, LocalStorageNoteRepository.getNotes b = s →
      ((LocalStorageNoteRepository.delete b id).2 = true ↔ id ∈ noteIds s) ∧
      (id ∉ noteIds s → LocalStorageNoteRepository.delete b id = (b, false)) ∧
      (id ∈ noteIds s →
        id ∉ noteIds (LocalStorageNoteRepository.getNotes
          (LocalStorageNoteRepository.delete b id).1) ∧
        (LocalStorageNoteRepository.getNotes
          (LocalStorageNoteRepository.delete b id).1).length + 1 = s.length ∧
        LocalStorageNoteRepository.delete (LocalStorageNoteRepository.delete b id).1 id =
          ((LocalStorageNoteRepository.delete b id).1, false))) := by
  refine ⟨?_, ?_, ?_, ?_⟩
  · cases hfi : findIndex (fun note => note.id == id) s with
    | none =>
      rw [delete_spec_none s id hfi]
      simpa using not_mem_of_findIndex_none hfi
    | some i =>
      rw [delete_spec_some s id i hfi]
      simpa using mem_of_findIndex_some hfi
  · intro habsent
    exact delete_spec_none s id (findIndex_id_eq_none habsent)
  · intro hmem
    cases hfi : findIndex (fun note => note.id == id) s with
    | none => exact absurd hmem (not_mem_of_findIndex_none hfi)
    | some i =>
      rw [delete_spec_some s id i hfi]
      have hnomatch := eraseIdx_no_match s i hnd hfi
      have hid : id ∉ noteIds (s.eraseIdx i) := by
        intro hmem'
        obtain ⟨a, ha, hai⟩ := List.mem_map.mp hmem'
        have := hnomatch a ha
        rw [hai] at this
        simp at this
      obtain ⟨a, hg, _⟩ := findIndex_some_spec hfi
      have hlen : i < s.length := (List.get?_eq_some.mp hg).1
      exact ⟨hid, List.length_eraseIdx_add_one hlen,
        delete_spec_none _ id (findIndex_id_eq_none hid)⟩
  · intro b hb
    refine ⟨?_, ?_, ?_⟩
    · cases hfi : findIndex (fun n => n.id == id) (LocalStorageNoteRepository.getNotes b) with
      | none =>
        rw [ls_delete_spec_none b id hfi]
        rw [hb] at hfi
        simpa using not_mem_of_findIndex_none hfi
      | some i =>
        rw [ls_delete_spec_some b id i hfi]
        rw [hb] at hfi
        simpa using mem_of_findIndex_some hfi
    · intro habsent
      exact ls_delete_spec_none b id (by rw [hb]; exact findIndex_id_eq_none habsent)
    · intro hmem
      cases hfi : findIndex (fun n => n.id == id) s with
      | none => exact absurd hmem (not_mem_of_findIndex_none hfi)
      | some i =>
        have hfi' : findIndex (fun n => n.id == id)
            (LocalStorageNoteRepository.getNotes b) = some i := by
          rw [hb]; exact hfi
        have hfst : (LocalStorageNoteRepository.delete b id).1 =
            LocalStorageNoteRepository.saveNotes (s.eraseIdx i) := by
          rw [ls_delete_spec_some b id i hfi', hb]
        have hread : LocalStorageNoteRepository.getNotes
            (LocalStorageNoteRepository.delete b id).1 = s.eraseIdx i := by
          rw [hfst, getNotes_saveNotes]
        have hnomatch := eraseIdx_no_match s i hnd hfi
        have hid : id ∉ noteIds (s.eraseIdx i) := by
          intro hmem'
          obtain ⟨a, ha, hai⟩ := List.mem_map.mp hmem'
          have := hnomatch a ha
          rw [hai] at this
          simp at this
        obtain ⟨a, hg, _⟩ := findIndex_some_spec hfi
        have hlen : i < s.length := (List.get?_eq_some.mp hg).1
        refine ⟨by rw [hread]; exact hid, by rw [hread]; exact List.length_eraseIdx_add_one hlen, ?_⟩
        exact ls_delete_spec_none _ id (by rw [hread]; exact findIndex_id_eq_none hid)

/-- Witness for C6: deleting an existing id succeeds once and fails the
second time, on both backends, in a two-note store with distinct ids. -/
theorem C6_delete_true_iff_present_witness :
    ((noteIds [{ id := "a1", title := some "t", content := some "c", category := some "g",
                 createdAt := 1, updatedAt := 1 },
               { id := "b2", title := some "u", content := some "d", category := some "h",
                 createdAt := 2, updatedAt := 2 }]).Nodup) ∧
    ((InMemoryNoteRepository.delete
        [{ id := "a1", title := some "t", content := some "c", category := some "g",
           createdAt := 1, updatedAt := 1 },
         { id := "b2", title := some "u", content := some "d", category := some "h",
           createdAt := 2, updatedAt := 2 }] "a1").2 = true ↔
      "a1" ∈ noteIds [{ id := "a1", title := some "t", content := some "c", category := some "g",
                        createdAt := 1, updatedAt := 1 },
                      { id := "b2", title := some "u", content := some "d", category := some "h",
                        createdAt := 2, updatedAt := 2 }]) ∧
    InMemoryNoteRepository.delete
        (InMemoryNoteRepository.delete
          [{ id := "a1", title := some "t", content := some "c", category := some "g",
             createdAt := 1, updatedAt := 1 },
           { id := "b2", title := some "u", content := some "d", category := some "h",
             createdAt := 2, updatedAt := 2 }] "a1").1 "a1" =
      ((InMemoryNoteRepository.delete
          [{ id := "a1", title := some "t", content := some "c", category := some "g",
             createdAt := 1, updatedAt := 1 },
           { id := "b2", title := some "u", content := some "d", category := some "h",
             createdAt := 2, updatedAt := 2 }] "a1").1, false) ∧
    LocalStorageNoteRepository.delete
        (LocalStorageNoteRepository.delete
          (LocalStorageNoteRepository.saveNotes
            [{ id := "a1", title := some "t", content := some "c", category := some "g",
               createdAt := 1, updatedAt := 1 },
             { id := "b2", title := some "u", content := some "d", category := some "h",
               createdAt := 2, updatedAt := 2 }]) "a1").1 "a1" =
      ((LocalStorageNoteRepository.delete
          (LocalStorageNoteRepository.saveNotes
            [{ id := "a1", title := some "t", content := some "c", category := some "g",
               createdAt := 1, updatedAt := 1 },
             { id := "b2", title := some "u", content := some "d", category := some "h",
               createdAt := 2, updatedAt := 2 }]) "a1").1, false) := by
  have h := C6_delete_true_iff_present
    [{ id := "a1", title := some "t", content := some "c", category := some "g",
       createdAt := 1, updatedAt := 1 },
     { id := "b2", title := some "u", content := some "d", category := some "h",
       createdAt := 2, updatedAt := 2 }] "a1" (by decide)
  refine ⟨by decide, h.1, (h.2.2.1 (by decide)).2.2, ?_⟩
  have hls := h.2.2.2 (LocalStorageNoteRepository.saveNotes
    [{ id := "a1", title := some "t", content := some "c", category := some "g",
       createdAt := 1, updatedAt := 1 },
     { id := "b2", title := some "u", content := some "d", category := some "h",
       createdAt := 2, updatedAt := 2 }]) (by decide)
  exact (hls.2.2 (by decide)).2.2

/-- C7: on both backends, starting from a store whose ids are pairwise
distinct (for example the empty store), any sequence of repository calls in
which the id generator is collision-free — each `create` is handed an id not
already held, the spec's sole requirement on the generator — leaves the ids
held by the instance pairwise distinct; N sequential creates from the empty
store are the special case of a creates-only sequence. -/
theorem C7_ids_pairwise_distinct
    (s : List Note) (b : LocalStorageNoteRepository.Blob) (ops : List MemOp)
    (hs : (noteIds s).Nodup)
    (hb : (noteIds (LocalStorageNoteRepository.getNotes b)).Nodup)
    (hsf : memFresh s ops = true)
    (hbf : lsFresh b ops = true) :
    (noteIds (memRun s ops)).Nodup ∧
    (noteIds (LocalStorageNoteRepository.getNotes (lsRun b ops))).Nodup :=
  ⟨memRun_nodup ops s hs hsf, lsRun_nodup ops b hb hbf⟩

/-- Witness for C7: three sequential creates from the empty store on both
backends, with a collision-free generator. -/
theorem C7_ids_pairwise_distinct_witness :
    (memFresh []
      [MemOp.create { title := some "t", content := some "c", category := some "g" } "id1" 1,
       MemOp.create { title := some "t", content := some "c", category := some "g" } "id2" 2,
       MemOp.create { title := some "t", content := some "c", category := some "g" } "id3" 3]
      = true) ∧
    (noteIds (memRun []
      [MemOp.create { title := some "t", content := some "c", category := some "g" } "id1" 1,
       MemOp.create { title := some "t", content := some "c", category := some "g" } "id2" 2,
       MemOp.create { title := some "t", content := some "c", category := some "g" } "id3" 3])).Nodup ∧
    (noteIds (LocalStorageNoteRepository.getNotes (lsRun none
      [MemOp.create { title := some "t", content := some "c", category := some "g" } "id1" 1,
       MemOp.create { title := some "t", content := some "c", category := some "g" } "id2" 2,
       MemOp.create { title := some "t", content := some "c", category := some "g" } "id3" 3]))).Nodup := by
  have h := C7_ids_pairwise_distinct [] none
    [MemOp.create { title := some "t", content := some "c", category := some "g" } "id1" 1,
     MemOp.create { title := some "t", content := some "c", category := some "g" } "id2" 2,
     MemOp.create { title := some "t", content := some "c", category := some "g" } "id3" 3]
    (by decide) (by decide) (by decide) (by decide)
  exact ⟨by decide, h.1, h.2⟩

/-- C8: validation happens only at the transport boundary.  When `title` or
`content` is absent from the request body, the `POST /notes` handler responds
400 and the repository state is untouched (the repository is never invoked);
the repository's own `create`, called directly with an arbitrary — even
malformed — DTO, performs no validation and stores the DTO's fields
verbatim. -/
theorem C8_validation_only_at_boundary
    (s : List Note) (body : CreateBody) (newId : String) (now : Nat)
    (dto : CreateNoteDTO)
    (hmiss : body.title = none ∨ body.content = none) :
    NoteController.create s body newId now = (s, CreateResponse.badRequest) ∧
    InMemoryNoteRepository.create s dto newId now =
      (s ++ [{ id := newId, title := dto.title, content := dto.content,
               category := dto.category, createdAt := now, updatedAt := now }],
       { id := newId, title := dto.title, content := dto.content,
         category := dto.category, createdAt := now, updatedAt := now }) := by
  constructor
  · have hf : falsy body.title || falsy body.content := by
      rcases hmiss with h | h <;> simp [falsy, h]
    simp [NoteController.create, hf]
  · rfl

/-- Witness for C8: a body missing `content` is rejected with 400 and the
store stays empty, while the repository called directly happily stores a DTO
whose fields are all `undefined`. -/
theorem C8_validation_only_at_boundary_witness :
    (({ title := some "T", content := none, category := some "G" : CreateBody }.title = none ∨
      ({ title := some "T", content := none, category := some "G" : CreateBody }).content = none) ∧
    NoteController.create [] { title := some "T", content := none, category := some "G" }
        "id1" 4 = ([], CreateResponse.badRequest)) ∧
    InMemoryNoteRepository.create [] { title := none, content := none, category := none }
        "id1" 4 =
      ([{ id := "id1", title := none, content := none, category := none,
          createdAt := 4, updatedAt := 4 }],
       { id := "id1", title := none, content := none, category := none,
         createdAt := 4, updatedAt := 4 }) := by
  have h := C8_validation_only_at_boundary []
    { title := some "T", content := none, category := some "G" } "id1" 4
    { title := none, content := none, category := none }
    (Or.inr rfl)
  exact ⟨⟨Or.inr rfl, h.1⟩, h.2⟩

/-- C9: through the HTTP update path, the handler always builds the object
literal `{title, content, category}` — all three keys present, each holding
`undefined` when the field was omitted from the request body — so the
repository's spread merge overwrites every stored text field with the body's
value: an omitted field becomes `undefined` in the stored note instead of
keeping its previous value.  The same DTO fed to the persistent backend's
`update` does the same. -/
theorem C9_update_overwrites_with_undefined
    (s : List Note) (id : String) (body : UpdateBody) (now : Nat)
    (i : Nat) (old : Note)
    (hfi : findIndex (fun note => note.id == id) s = some i)
    (hg : s.get? i = some old) :
    NoteController.update s id body now =
      (s.set i { id := old.id, title := body.title, content := body.content,
                 category := body.category, createdAt := old.createdAt, updatedAt := now },
       UpdateResponse.ok { id := old.id, title := body.title, content := body.content,
                           category := body.category, createdAt := old.createdAt,
                           updatedAt := now }) ∧
    (∀ b, LocalStorageNoteRepository.getNotes b = s →
      LocalStorageNoteRepository.update b id
          { title := some body.title, content := some body.content,
            category := some body.category } now =
        (LocalStorageNoteRepository.saveNotes
          (s.set i { id := old.id, title := body.title, content := body.content,
                     category := body.category, createdAt := old.createdAt,
                     updatedAt := now }),
         some { id := old.id, title := body.title, content := body.content,
                category := body.category, createdAt := old.createdAt,
                updatedAt := now })) := by
  constructor
  · simp only [NoteController.update,
      update_spec_some s id
        { title := some body.title, content := some body.content,
          category := some body.category } now i old hfi hg]
    rfl
  · intro b hb
    exact hb ▸ ls_update_spec_some b id _ now i old (hb ▸ hfi) (hb ▸ hg)

/-- Witness for C9: a PUT whose body carries only `content` wipes the stored
`title` and `category` to `undefined` rather than preserving them. -/
theorem C9_update_overwrites_with_undefined_witness :
    NoteController.update
        [{ id := "n1", title := some "A", content := some "B", category := some "C",
           createdAt := 5, updatedAt := 5 }] "n1"
        { title := none, content := some "B2", category := none } 9 =
      ([{ id := "n1", title := none, content := some "B2", category := none,
          createdAt := 5, updatedAt := 9 }],
       UpdateResponse.ok { id := "n1", title := none, content := some "B2", category := none,
                           createdAt := 5, updatedAt := 9 }) := by
  have h := C9_update_overwrites_with_undefined
    [{ id := "n1", title := some "A", content := some "B", category := some "C",
       createdAt := 5, updatedAt := 5 }] "n1"
    { title := none, content := some "B2", category := none } 9 0
    { id := "n1", title := some "A", content := some "B", category := some "C",
      createdAt := 5, updatedAt := 5 }
    (by decide) (by decide)
  exact h.1

/-- C10: at the HTTP create boundary, a falsy `category` (absent or the
empty string) is replaced by the literal `'Geral'` in the note handed to the
repository and hence stored; and a `title` or `content` that is present but
equal to the empty string is falsy, so the request is rejected with 400 as
if the field were missing. -/
theorem C10_category_default_and_empty_string_rejected
    (s : List Note) (body : CreateBody) (newId : String) (now : Nat)
    (htitle : falsy body.title = false)
    (hcontent : falsy body.content = false)
    (hcat : falsy body.category = true) :
    NoteController.create s body newId now =
      (s ++ [{ id := newId, title := body.title, content := body.content,
               category := some "Geral", createdAt := now, updatedAt := now }],
       CreateResponse.created { id := newId, title := body.title, content := body.content,
                                category := some "Geral", createdAt := now,
                                updatedAt := now }) ∧
    (∀ body' : CreateBody, body'.title = some "" ∨ body'.content = some "" →
      NoteController.create s body' newId now = (s, CreateResponse.badRequest)) := by
  constructor
  · simp only [NoteController.create, htitle, hcontent, hcat, Bool.or_self, if_true,
      Bool.or_false, Bool.false_eq_true, if_false]
    rfl
  · intro body' hempty
    have hf : falsy body'.title || falsy body'.content := by
      rcases hempty with h | h <;> simp [falsy, h]
    simp [NoteController.create, hf]

/-- Witness for C10: a body with truthy title and content but an
empty-string category is stored with category `'Geral'`; a body with an
empty-string title is rejected with 400. -/
theorem C10_category_default_and_empty_string_rejected_witness :
    (falsy (some "T") = false ∧ falsy (some "C") = false ∧ falsy (some "") = true) ∧
    NoteController.create []
        { title := some "T", content := some "C", category := some "" } "id1" 4 =
      ([{ id := "id1", title := some "T", content := some "C", category := some "Geral",
          createdAt := 4, updatedAt := 4 }],
       CreateResponse.created { id := "id1", title := some "T", content := some "C",
                                category := some "Geral", createdAt := 4, updatedAt := 4 }) ∧
    NoteController.create []
        { title := some "", content := some "C", category := none } "id1" 4 =
      ([], CreateResponse.badRequest) := by
  have h := C10_category_default_and_empty_string_rejected []
    { title := some "T", content := some "C", category := some "" } "id1" 4
    (by decide) (by decide) (by decide)
  exact ⟨⟨by decide, by decide, by decide⟩, h.1,
    h.2 { title := some "", content := some "C", category := none } (Or.inl rfl)⟩
